import Mathlib

/-!
Verification development for the PlantGrow procedural tree generator.

The C++ core (`src/core/types.h`, `branch.h`, `tree.h`, `lsystem.h/.cpp`,
`tropism.h/.cpp`, `resources.h/.cpp`) is shallowly embedded here.

Modelling conventions:
* `float` scalars become `ℚ`.  Floating literals such as `0.95f` or the
  `3.14159f` pi constant are carried over as the exact rationals they denote.
* `std::sqrt` is modelled by `ratSqrt`, an exact rational square root on
  radicands of the form `n / d` whose product `n * d` is a perfect square
  (every claim below either evaluates it only at perfect squares or uses
  nothing beyond its nonnegativity).
* `std::sin` / `std::cos` are transcendental and are abstracted by a `Trig`
  structure of two rational functions; theorems about rotations assume the
  Pythagorean identity for the pair.
* The `mt19937` generator threaded through the interpreter is abstracted as a
  stream of rational draws in `[0,1)` plus a cursor, mirroring how
  `uniform_real_distribution` consumes the engine.
* `shared_ptr<Branch>` object identity is modelled by indices into a heap
  `store : List Branch` that only grows; the tree's flat list `all_branches`
  holds store indices, so pointer comparison becomes index comparison.
-/

namespace PlantGrow

/-- Exact-on-perfect-squares rational square root standing in for the C++
`std::sqrt`: for `q = n / d` (reduced, `d > 0`) it returns
`Nat.sqrt (n * d) / d`, which equals `√q` whenever `n * d` is a perfect
square, and is always nonnegative. -/
def ratSqrt (q : ℚ) : ℚ :=
  if q ≤ 0 then 0 else (Nat.sqrt (q.num.toNat * q.den) : ℚ) / (q.den : ℚ)

/-- Model of `std::clamp(v, lo, hi)` from `<algorithm>`. -/
def clampQ (v lo hi : ℚ) : ℚ :=
  if v < lo then lo else if hi < v then hi else v

/-- Model of `Vec3` from `src/core/types.h`. -/
structure Vec3 where
  x : ℚ
  y : ℚ
  z : ℚ
  deriving DecidableEq, Repr

namespace Vec3

def add (a b : Vec3) : Vec3 := ⟨a.x + b.x, a.y + b.y, a.z + b.z⟩

def sub (a b : Vec3) : Vec3 := ⟨a.x - b.x, a.y - b.y, a.z - b.z⟩

/-- Model of `operator*(float scalar)`. -/
def smul (a : Vec3) (s : ℚ) : Vec3 := ⟨a.x * s, a.y * s, a.z * s⟩

/-- Model of `operator/(float scalar)`. -/
def divQ (a : Vec3) (s : ℚ) : Vec3 := ⟨a.x / s, a.y / s, a.z / s⟩

instance : Add Vec3 := ⟨add⟩
instance : Sub Vec3 := ⟨sub⟩

/-- Model of `x*x + y*y + z*z`, the radicand of `length()`. -/
def norm2 (a : Vec3) : ℚ := a.x * a.x + a.y * a.y + a.z * a.z

/-- Model of `Vec3::length()`. -/
def length (a : Vec3) : ℚ := ratSqrt a.norm2

/-- Model of `Vec3::normalized()`: falls back to `(0,1,0)` for near-zero vectors. -/
def normalized (a : Vec3) : Vec3 :=
  let len := a.length
  if len < 1 / 1000000 then ⟨0, 1, 0⟩ else a.divQ len

def dot (a b : Vec3) : ℚ := a.x * b.x + a.y * b.y + a.z * b.z

def cross (a b : Vec3) : Vec3 :=
  ⟨a.y * b.z - a.z * b.y, a.z * b.x - a.x * b.z, a.x * b.y - a.y * b.x⟩


end Vec3

/-- Abstraction of `std::sin` / `std::cos` (transcendental, hence not
computable in `ℚ`); rotation theorems assume `sinq t ^ 2 + cosq t ^ 2 = 1`. -/
structure Trig where
  sinq : ℚ → ℚ
  cosq : ℚ → ℚ

/-- A `Trig` pair satisfying the Pythagorean identity everywhere. -/
def Trig.Pythagorean (t : Trig) : Prop :=
  ∀ a : ℚ, t.sinq a * t.sinq a + t.cosq a * t.cosq a = 1

/-- Model of `Quat` from `src/core/types.h`. -/
structure Quat where
  w : ℚ
  x : ℚ
  y : ℚ
  z : ℚ
  deriving DecidableEq, Repr

namespace Quat

/-- Model of `Quat::from_axis_angle` (sin/cos supplied by the `Trig` abstraction). -/
def fromAxisAngle (t : Trig) (axis : Vec3) (angle : ℚ) : Quat :=
  let half_angle := angle * (1 / 2)
  let s := t.sinq half_angle
  let norm_axis := axis.normalized
  ⟨t.cosq half_angle, norm_axis.x * s, norm_axis.y * s, norm_axis.z * s⟩

/-- Model of `Quat::rotate`: `v + (t * w) + qv.cross(t)` with `t = qv.cross(v) * 2`. -/
def rotate (q : Quat) (v : Vec3) : Vec3 :=
  let qv : Vec3 := ⟨q.x, q.y, q.z⟩
  let t := (qv.cross v).smul 2
  v + t.smul q.w + qv.cross t

def norm2 (q : Quat) : ℚ := q.w * q.w + q.x * q.x + q.y * q.y + q.z * q.z

end Quat

/-! ## Tropism system (`src/core/tropism.h`, `tropism.cpp`) -/

/-- Model of `Environment` from `tropism.h` (defaults from the in-class initializers). -/
structure Environment where
  light_direction : Vec3 := ⟨0, 1, 0⟩
  gravity_direction : Vec3 := ⟨0, -1, 0⟩
  light_position : Vec3 := ⟨0, 100, 0⟩
  ambient_light : ℚ := 1 / 5
  deriving DecidableEq, Repr

/-- Model of `TropismParams` from `tropism.h` (defaults from the constructor). -/
structure TropismParams where
  phototropism_strength : ℚ := 4 / 5
  response_distance : ℚ := 5
  phototropism_enabled : Bool := true
  gravitropism_strength : ℚ := 3 / 5
  gravitropism_enabled : Bool := true
  age_sensitivity : ℚ := 1 / 2
  apical_dominance : ℚ := 13 / 20
  deriving DecidableEq, Repr

/-- A `TropismSystem` value is its two configuration records. -/
structure TropismSystem where
  params : TropismParams
  environment : Environment
  deriving DecidableEq, Repr

namespace TropismSystem

/-- Model of `TropismSystem::bend_toward_vector`. -/
def bend_toward_vector (_t : TropismSystem) (current target : Vec3)
    (strength : ℚ) : Vec3 :=
  let s := clampQ strength 0 1
  (current.smul (1 - s) + target.smul s).normalized

/-- Model of `TropismSystem::apply_phototropism`. -/
def apply_phototropism (t : TropismSystem) (current_direction position : Vec3) :
    Vec3 :=
  let to_light := (t.environment.light_position - position).normalized
  let distance := (t.environment.light_position - position).length
  let distance_falloff :=
    if 0 < t.params.response_distance then
      max 0 (1 - distance / (t.params.response_distance * 100))
    else 1
  let alignment := current_direction.dot to_light
  let alignment_factor := 1 - max 0 alignment * (1 / 2)
  let effective_strength :=
    t.params.phototropism_strength * distance_falloff * alignment_factor
  t.bend_toward_vector current_direction to_light effective_strength

/-- Model of `TropismSystem::apply_gravitropism`. -/
def apply_gravitropism (t : TropismSystem) (current_direction : Vec3)
    (branch_depth : ℤ) : Vec3 :=
  let depth_factor :=
    clampQ (1 - t.params.apical_dominance / ((branch_depth : ℚ) + 1)) 0 1
  let effective_strength := t.params.gravitropism_strength * depth_factor
  if branch_depth = 0 then
    t.bend_toward_vector current_direction ⟨0, 1, 0⟩ (effective_strength * (1 / 2))
  else
    t.bend_toward_vector current_direction t.environment.gravity_direction
      effective_strength

/-- Model of `TropismSystem::apply_tropism`. -/
def apply_tropism (t : TropismSystem) (current_direction position : Vec3)
    (branch_depth : ℤ) (_branch_age : ℤ) : Vec3 :=
  let result := current_direction.normalized
  let result :=
    if t.params.phototropism_enabled then t.apply_phototropism result position
    else result
  let result :=
    if t.params.gravitropism_enabled then
      t.apply_gravitropism result branch_depth
    else result
  result.normalized

/-- Model of `TropismSystem::compute_light_exposure`. -/
def compute_light_exposure (t : TropismSystem) (position direction : Vec3) : ℚ :=
  let to_light := (t.environment.light_position - position).normalized
  let alignment := direction.dot to_light
  let exposure := (alignment + 1) * (1 / 2)
  let exposure := max exposure t.environment.ambient_light
  clampQ exposure 0 1

/-- Model of `TropismSystem::get_age_modifier`. -/
def get_age_modifier (t : TropismSystem) (age : ℤ) : ℚ :=
  clampQ (1 - (age : ℚ) * t.params.age_sensitivity * (1 / 100)) (3 / 10) 1

end TropismSystem

/-! ## Branch and Tree (`src/core/branch.h`, `tree.h`)

Branch objects live behind `shared_ptr`s in C++; here they live in a heap
`store : List Branch` that only grows, and both the ownership links
(`parent`, `children`) and the tree's flat `all_branches` list hold store
indices.  Pointer equality becomes index equality. -/

/-- Model of `Branch` from `src/core/branch.h`; constructor defaults below. -/
structure Branch where
  start_pos : Vec3
  direction : Vec3
  length : ℚ
  radius : ℚ
  depth : ℤ := 0
  parent : Option ℕ := none
  children : List ℕ := []
  age : ℤ := 0
  curve_points : List Vec3 := []
  light_exposure : ℚ := 1
  deriving DecidableEq, Repr

/-- The `Branch(start, direction, length, radius)` constructor, which
normalizes the direction and leaves every other field at its default. -/
def mkBranch (start direction : Vec3) (length radius : ℚ) : Branch :=
  { start_pos := start
    direction := direction.normalized
    length := length
    radius := radius }

/-- Placeholder object returned when a store index is out of range
(never reachable from the modelled call sites). -/
def defaultBranch : Branch := mkBranch ⟨0, 0, 0⟩ ⟨0, 1, 0⟩ 0 0

/-- Dereference a store index (`shared_ptr` dereference). -/
def branchAt (store : List Branch) (i : ℕ) : Branch := store.getD i defaultBranch

namespace Branch

/-- Model of `Branch::end_pos()`. -/
def end_pos (b : Branch) : Vec3 :=
  if b.curve_points.isEmpty then b.start_pos + b.direction.smul b.length
  else b.curve_points.getLastD ⟨0, 0, 0⟩

end Branch

/-- In-place update of one heap cell, as `branches[i]->field = v` does. -/
def modifyAt {α : Type} : List α → ℕ → (α → α) → List α
  | [], _, _ => []
  | a :: l, 0, f => f a :: l
  | a :: l, n + 1, f => a :: modifyAt l n f

/-- Model of `Tree` from `src/core/tree.h`, plus the branch heap. -/
structure Tree where
  store : List Branch := []
  root : Option ℕ := none
  all_branches : List ℕ := []
  age : ℤ := 0
  deriving DecidableEq, Repr

namespace Tree

/-- Model of `Tree::add_branch`. -/
def add_branch (t : Tree) (i : ℕ) : Tree :=
  { t with all_branches := t.all_branches ++ [i] }

/-- Model of `Tree::set_root`. -/
def set_root (t : Tree) (i : ℕ) : Tree :=
  add_branch { t with root := some i } i

end Tree

/-! ## Resource system (`src/core/resources.h`, `resources.cpp`) -/

/-- Model of `ResourceParams` from `resources.h` (defaults from the initializers). -/
structure ResourceParams where
  light_competition_enabled : Bool := true
  base_light_level : ℚ := 1
  occlusion_radius : ℚ := 2
  occlusion_falloff : ℚ := 1 / 2
  photosynthesis_efficiency : ℚ := 1
  resource_transport_rate : ℚ := 4 / 5
  maintenance_cost : ℚ := 1 / 10
  pruning_enabled : Bool := true
  min_light_threshold : ℚ := 3 / 20
  min_resource_threshold : ℚ := 1 / 5
  pruning_grace_period : ℤ := 2
  competition_radius : ℚ := 3 / 2
  dominance_factor : ℚ := 7 / 10
  deriving DecidableEq, Repr

/-- Model of `ResourceState` from `resources.h` (default-constructed values). -/
structure ResourceState where
  light_capture : ℚ := 1
  resource_balance : ℚ := 1
  accumulated_deficit : ℚ := 0
  marked_for_pruning : Bool := false
  deficit_duration : ℤ := 0
  deriving DecidableEq, Repr

/-- Model of `ResourceSystem`: its params plus the `branch_states_` vector. -/
structure ResourceSystem where
  params : ResourceParams
  branch_states : List ResourceState := []
  deriving DecidableEq, Repr

namespace ResourceSystem

/-- The literal `3.14159f` used by `calculate_maintenance_cost`. -/
def piLit : ℚ := 314159 / 100000

/-- The `MAX_BRANCHES_FOR_FULL_CHECK` / `MAX_BRANCHES_FOR_COMPETITION`
constant (both are 1000). -/
def maxBranchesFull : ℕ := 1000

/-- Model of `ResourceSystem::calculate_occlusion`: pairwise occlusion by branches
strictly above, within `occlusion_radius`, normalized by `√occluder_count`
and capped at `0.9`. -/
def calculate_occlusion (p : ResourceParams) (store : List Branch)
    (ids : List ℕ) (selfId : ℕ) : ℚ :=
  let branch_pos := (branchAt store selfId).end_pos
  let acc := ids.foldl
    (fun (acc : ℚ × ℕ) j =>
      if j = selfId then acc
      else
        let other_pos := (branchAt store j).end_pos
        if other_pos.y ≤ branch_pos.y then acc
        else
          let diff := other_pos - branch_pos
          let distance := diff.length
          if distance < p.occlusion_radius then
            let height_diff := other_pos.y - branch_pos.y
            let horizontal_dist := ratSqrt (diff.x * diff.x + diff.z * diff.z)
            let occlusion_factor :=
              clampQ (height_diff / (horizontal_dist + 1 / 10)) 0 1
            let falloff := 1 - distance / p.occlusion_radius
            (acc.1 + occlusion_factor * falloff * p.occlusion_falloff,
             acc.2 + 1)
          else acc)
    (0, 0)
  if 0 < acc.2 then min (9 / 10) (acc.1 / ratSqrt (acc.2 : ℚ)) else acc.1

/-- The depth/height heuristic used instead of pairwise occlusion for trees
above `MAX_BRANCHES_FOR_FULL_CHECK` branches. -/
def sampling_occlusion (b : Branch) : ℚ :=
  let pos := b.end_pos
  let depth_factor := ((min 10 b.depth : ℤ) : ℚ) / 10
  let height_factor := clampQ ((pos.y + 10) / 20) 0 1
  depth_factor * (1 - height_factor * (1 / 2)) * (1 / 2)

/-- Model of `ResourceSystem::calculate_light_capture` (one per-branch step). -/
def light_capture_step (p : ResourceParams) (store : List Branch)
    (ids : List ℕ) (use_sampling : Bool) (i : ℕ) (st : ResourceState) :
    ResourceState :=
  let b := branchAt store i
  let occlusion :=
    if use_sampling then sampling_occlusion b
    else calculate_occlusion p store ids i
  let orientation_bonus := max 0 (b.direction.dot ⟨0, 1, 0⟩) * (3 / 10)
  let lc := p.base_light_level * (1 - occlusion) + orientation_bonus
  { st with light_capture := clampQ lc 0 1 }

/-- Model of `ResourceSystem::calculate_light_capture` (`use_sampling` holds above
the branch-count threshold). -/
def calculate_light_capture (p : ResourceParams) (store : List Branch)
    (ids : List ℕ) (states : List ResourceState) : List ResourceState :=
  List.zipWith
    (light_capture_step p store ids (decide (maxBranchesFull < ids.length)))
    ids states

/-- Model of `ResourceSystem::calculate_competition_factor`. -/
def calculate_competition_factor (p : ResourceParams) (store : List Branch)
    (ids : List ℕ) (selfId : ℕ) : ℚ :=
  let branch_pos := (branchAt store selfId).end_pos
  let acc := ids.foldl
    (fun (acc : ℚ × ℕ) j =>
      if j = selfId then acc
      else
        let other_pos := (branchAt store j).end_pos
        let diff := other_pos - branch_pos
        let distance := diff.length
        if distance < p.competition_radius then
          let height_advantage := (other_pos.y - branch_pos.y) * p.dominance_factor
          let competition_strength := 1 - distance / p.competition_radius
          let competition_strength :=
            if 0 < height_advantage then
              competition_strength * (1 + height_advantage)
            else competition_strength
          (acc.1 + competition_strength, acc.2 + 1)
        else acc)
    (0, 0)
  if 0 < acc.2 then min (4 / 5) (acc.1 / (acc.2 : ℚ)) else acc.1

/-- Model of `ResourceSystem::apply_competition` (skipped above the size threshold). -/
def apply_competition (p : ResourceParams) (store : List Branch)
    (ids : List ℕ) (states : List ResourceState) : List ResourceState :=
  if maxBranchesFull < ids.length then states
  else
    List.zipWith
      (fun i st =>
        let competition := calculate_competition_factor p store ids i
        { st with
          light_capture := st.light_capture * (1 - competition * (1 / 2)) })
      ids states

/-- Model of `ResourceSystem::calculate_photosynthesis`. -/
def calculate_photosynthesis (p : ResourceParams) (b : Branch)
    (light_capture : ℚ) : ℚ :=
  light_capture * (b.length * b.radius * 2) * p.photosynthesis_efficiency

/-- Model of `ResourceSystem::calculate_maintenance_cost`. -/
def calculate_maintenance_cost (p : ResourceParams) (b : Branch) : ℚ :=
  (b.length * b.radius * b.radius * piLit) * p.maintenance_cost *
    (1 + (b.age : ℚ) * (5 / 100))

/-- One per-branch step of `ResourceSystem::calculate_resource_flow`. -/
def resource_flow_step (p : ResourceParams) (store : List Branch) (i : ℕ)
    (st : ResourceState) : ResourceState :=
  let b := branchAt store i
  let production := calculate_photosynthesis p b st.light_capture
  let cost := calculate_maintenance_cost p b
  let balance := production - cost
  if balance < 0 then
    { st with
      resource_balance := balance
      accumulated_deficit := st.accumulated_deficit + -balance
      deficit_duration := st.deficit_duration + 1 }
  else
    let decayed := st.accumulated_deficit * (4 / 5)
    { st with
      resource_balance := balance
      accumulated_deficit := decayed
      deficit_duration := if decayed < 1 / 100 then 0 else st.deficit_duration }

/-- Model of `ResourceSystem::calculate_resource_flow`. -/
def calculate_resource_flow (p : ResourceParams) (store : List Branch)
    (ids : List ℕ) (states : List ResourceState) : List ResourceState :=
  List.zipWith (resource_flow_step p store) ids states

/-- Model of `ResourceSystem::should_prune`. -/
def should_prune (p : ResourceParams) (b : Branch) (st : ResourceState) :
    Bool :=
  if b.depth ≤ 1 then false
  else if b.depth < p.pruning_grace_period + 2 then false
  else if st.light_capture < p.min_light_threshold then true
  else if st.resource_balance < p.min_resource_threshold ∧
      2 ≤ st.deficit_duration then true
  else false

/-- Model of `ResourceSystem::evaluate_pruning` (the marking loop; the `std::cout`
statistics are I/O and are not modelled). -/
def evaluate_pruning (p : ResourceParams) (store : List Branch)
    (ids : List ℕ) (states : List ResourceState) : List ResourceState :=
  List.zipWith
    (fun i st =>
      if should_prune p (branchAt store i) st then
        { st with marked_for_pruning := true }
      else st)
    ids states

/-- Steps 1-4 of `ResourceSystem::calculate_resources`: light capture when
light competition is enabled, competition, resource flow, and pruning
evaluation when pruning is enabled. -/
def resource_pipeline (p : ResourceParams) (store : List Branch)
    (ids : List ℕ) (st0 : List ResourceState) : List ResourceState :=
  let st1 :=
    if p.light_competition_enabled then
      calculate_light_capture p store ids st0
    else st0
  let st2 := apply_competition p store ids st1
  let st3 := calculate_resource_flow p store ids st2
  if p.pruning_enabled then evaluate_pruning p store ids st3 else st3

/-- The write-back loop at the end of `calculate_resources`:
`branches[i]->light_exposure = branch_states_[i].light_capture`. -/
def write_light_exposure (store : List Branch)
    (l : List (ℕ × ResourceState)) : List Branch :=
  l.foldl
    (fun s q =>
      modifyAt s q.1 (fun b => { b with light_exposure := q.2.light_capture }))
    store

/-- Model of `ResourceSystem::calculate_resources`: early-out on an empty branch
list, resize/reset state on size change, then the four stages, then write
`light_exposure` back into the branches.  Returns the updated system and
the updated branch heap. -/
def calculate_resources (store : List Branch) (ids : List ℕ)
    (sys : ResourceSystem) : ResourceSystem × List Branch :=
  if ids.isEmpty then (sys, store)
  else
    let st0 :=
      if sys.branch_states.length ≠ ids.length then
        List.replicate ids.length {}
      else sys.branch_states
    let st4 := resource_pipeline sys.params store ids st0
    ({ sys with branch_states := st4 },
     write_light_exposure store (ids.zip st4))

/-- Model of `ResourceSystem::identify_pruned_branches`: flat-list positions of the
marked states. -/
def identify_pruned_branches (sys : ResourceSystem) : List ℕ :=
  (List.range sys.branch_states.length).filter
    (fun i => (sys.branch_states.getD i {}).marked_for_pruning)

/-- Model of `ResourceSystem::get_state` (`branch_id` is a C++ `int`). -/
def get_state (sys : ResourceSystem) (branch_id : ℤ) : ResourceState :=
  if 0 ≤ branch_id ∧ branch_id < (sys.branch_states.length : ℤ) then
    sys.branch_states.getD branch_id.toNat {}
  else {}

end ResourceSystem

/-- Detach one branch from its parent's child list
(the `remove_if` in `Tree::apply_resource_simulation`). -/
def detachFromParent (store : List Branch) (bid : ℕ) : List Branch :=
  match (branchAt store bid).parent with
  | none => store
  | some q =>
      modifyAt store q
        (fun b => { b with children := b.children.filter (fun c => c ≠ bid) })

/-- One iteration of the detach loop in `Tree::apply_resource_simulation`:
the `id >= 0 && id < all_branches.size()` bound check followed by the
parent-child unlink. -/
def detachStep (ab : List ℕ) (s : List Branch) (pos : ℕ) : List Branch :=
  if pos < ab.length then detachFromParent s (ab.getD pos 0) else s

/-- Model of `Tree::apply_resource_simulation` from `src/core/tree.cpp`. -/
def Tree.apply_resource_simulation (t : Tree) (sys : ResourceSystem) :
    Tree × ResourceSystem :=
  if t.all_branches.isEmpty then (t, sys)
  else
    let pr := ResourceSystem.calculate_resources t.store t.all_branches sys
    let sys' := pr.1
    let store' := pr.2
    let pruned_ids := sys'.identify_pruned_branches
    if pruned_ids.isEmpty then ({ t with store := store' }, sys')
    else
      let store2 := pruned_ids.foldl (detachStep t.all_branches) store'
      let surviving := (t.all_branches.enum.filter
        (fun q => ¬ pruned_ids.contains q.1)).map Prod.snd
      ({ t with store := store2, all_branches := surviving }, sys')

/-! ## L-system engine and turtle interpreter (`src/core/lsystem.h/.cpp`) -/

/-- Model of `LSystemParams` from `lsystem.h`; `axm` is the `axiom` string and the
rule table keeps `std::map`'s unique keys as an association list. -/
structure LSystemParams where
  axm : List Char
  rules : List (Char × List Char)
  iterations : ℤ
  segment_length : ℚ
  segment_radius : ℚ
  branch_angle : ℚ
  angle_variation : ℚ
  random_seed : ℕ := 0
  stochastic_variation : ℚ := 0
  curve_segments : ℤ := 0

/-- The seeded `std::mt19937` plus `uniform_real_distribution`, abstracted as
a stream of rational draws in `[0,1)` and a cursor that advances once per
distribution call. -/
structure Rng where
  draws : ℕ → ℚ
  idx : ℕ

namespace Rng

def next (r : Rng) : ℚ × Rng := (r.draws r.idx, { r with idx := r.idx + 1 })

end Rng

/-- Model of `LSystem::random_float(min, max)`. -/
def random_float (lo hi : ℚ) (r : Rng) : ℚ × Rng :=
  let u := r.next
  (lo + (hi - lo) * u.1, u.2)

/-- Model of `LSystem::random_chance(probability)`. -/
def random_chance (probability : ℚ) (r : Rng) : Bool × Rng :=
  let u := r.next
  (u.1 < probability, u.2)

/-- The body of `LSystem::apply_rules`'s loop for one input character.
Both arms of the `stochastic_variation` conditional append the rule's
replacement; the RNG is consumed only when `stochastic_variation > 0`
(the `&&` short-circuit). -/
def apply_rules_step (p : LSystemParams) (acc : List Char × Rng) (c : Char) :
    List Char × Rng :=
  match p.rules.find? (fun rule => rule.1 = c) with
  | some rule =>
      if 0 < p.stochastic_variation then
        let b := random_chance p.stochastic_variation acc.2
        (acc.1 ++ rule.2, b.2)
      else (acc.1 ++ rule.2, acc.2)
  | none => (acc.1 ++ [c], acc.2)

/-- Model of `LSystem::apply_rules`: one left-to-right rewriting pass. -/
def apply_rules (p : LSystemParams) (input : List Char) (r : Rng) :
    List Char × Rng :=
  input.foldl (apply_rules_step p) ([], r)

/-- Model of `LSystem::generate`: `iterations` passes of `apply_rules` over the
axiom (a non-positive `int` iteration count runs zero passes). -/
def generate (p : LSystemParams) (r : Rng) : List Char × Rng :=
  (List.range p.iterations.toNat).foldl
    (fun acc _ => apply_rules p acc.1 acc.2) (p.axm, r)

/-- Model of `TurtleState` from `lsystem.h` (constructor defaults). -/
structure TurtleState where
  position : Vec3 := ⟨0, 0, 0⟩
  direction : Vec3 := ⟨0, 1, 0⟩
  up : Vec3 := ⟨0, 0, 1⟩
  radius : ℚ := 1
  depth : ℕ := 0
  deriving DecidableEq, Repr

/-- The `3.14159265359f` constant of `process_symbol`/`rotate_turtle`. -/
def piTurtle : ℚ := 314159265359 / 100000000000

/-- Model of `LSystem::rotate_turtle`: axis-angle quaternion rotation of both frame
vectors followed by re-normalization. -/
def rotate_turtle (t : Trig) (st : TurtleState) (angle_degrees : ℚ)
    (axis : Vec3) : TurtleState :=
  let angle_radians := angle_degrees * piTurtle / 180
  let rotation := Quat.fromAxisAngle t axis angle_radians
  { st with
    direction := (rotation.rotate st.direction).normalized
    up := (rotation.rotate st.up).normalized }

/-- The walk of `LSystem::apply_tropism_to_branch`: advance `n` sub-steps,
bending the direction by the tropism field before each advance, and collect
the curve points. -/
def tropismWalk (ts : TropismSystem) (depth age : ℤ) (seglen : ℚ) :
    ℕ → Vec3 → Vec3 → List Vec3 → Vec3 × Vec3 × List Vec3
  | 0, pos, dir, pts => (pos, dir, pts)
  | n + 1, pos, dir, pts =>
      let dir' := ts.apply_tropism dir pos depth age
      let pos' := pos + dir'.smul seglen
      tropismWalk ts depth age seglen n pos' dir' (pts ++ [pos'])

/-- Model of `LSystem::apply_tropism_to_branch`: no-op without a tropism system or
with `curve_segments <= 0`; otherwise rebuilds the branch's curve points,
overwrites its direction with the final sub-step direction and samples light
exposure at the branch midpoint. -/
def applyTropismToBranch (trop : Option TropismSystem) (curve_segments : ℤ)
    (store : List Branch) (bid : ℕ) : List Branch :=
  match trop with
  | none => store
  | some ts =>
      if curve_segments ≤ 0 then store
      else
        modifyAt store bid (fun b =>
          let seglen := b.length / (curve_segments : ℚ)
          let walked := tropismWalk ts b.depth b.age seglen curve_segments.toNat
            b.start_pos b.direction [b.start_pos]
          let final_dir := walked.2.1
          let mid_pos := b.start_pos + final_dir.smul (b.length * (1 / 2))
          { b with
            curve_points := walked.2.2
            direction := final_dir
            light_exposure := ts.compute_light_exposure mid_pos final_dir })

/-- The interpretation state threaded through `LSystem::interpret`'s loop:
turtle, save/restore stack, tree under construction, `current_branch`
(a store index or null), and the RNG. -/
structure InterpState where
  turtle : TurtleState
  stack : List TurtleState
  tree : Tree
  current : Option ℕ
  rng : Rng

/-- Model of `LSystem::process_symbol`. -/
def processSymbol (p : LSystemParams) (t : Trig) (trop : Option TropismSystem)
    (c : Char) (s : InterpState) : InterpState :=
  match c with
  | 'F' =>
      let length := p.segment_length
      let radius := p.segment_radius * (19 / 20 : ℚ) ^ s.turtle.depth
      let newId := s.tree.store.length
      let nb := { mkBranch s.turtle.position s.turtle.direction length radius
        with depth := (s.turtle.depth : ℤ) }
      let linked : List Branch × Branch :=
        match s.current with
        | some cid =>
            (modifyAt s.tree.store cid
              (fun b => { b with children := b.children ++ [newId] }),
             { nb with
               parent := some cid
               depth := (branchAt s.tree.store cid).depth + 1 })
        | none => (s.tree.store, nb)
      let store2 := linked.1 ++ [linked.2]
      let tree2 := Tree.add_branch { s.tree with store := store2 } newId
      let store3 := applyTropismToBranch trop p.curve_segments store2 newId
      { s with
        turtle := { s.turtle with position := (branchAt store3 newId).end_pos }
        tree := { tree2 with store := store3 }
        current := some newId }
  | 'f' =>
      { s with turtle :=
        { s.turtle with position :=
          s.turtle.position + s.turtle.direction.smul p.segment_length } }
  | '+' =>
      let v := random_float (-p.angle_variation) p.angle_variation s.rng
      let angle := p.branch_angle + v.1
      { s with turtle := rotate_turtle t s.turtle angle s.turtle.up, rng := v.2 }
  | '-' =>
      let v := random_float (-p.angle_variation) p.angle_variation s.rng
      let angle := -(p.branch_angle + v.1)
      { s with turtle := rotate_turtle t s.turtle angle s.turtle.up, rng := v.2 }
  | '&' =>
      let right := (s.turtle.direction.cross s.turtle.up).normalized
      let v := random_float (-p.angle_variation) p.angle_variation s.rng
      let angle := p.branch_angle + v.1
      { s with turtle := rotate_turtle t s.turtle angle right, rng := v.2 }
  | '^' =>
      let right := (s.turtle.direction.cross s.turtle.up).normalized
      let v := random_float (-p.angle_variation) p.angle_variation s.rng
      let angle := -(p.branch_angle + v.1)
      { s with turtle := rotate_turtle t s.turtle angle right, rng := v.2 }
  | '\\' =>
      let axis := s.turtle.direction
      { s with turtle := rotate_turtle t s.turtle p.branch_angle axis }
  | '/' =>
      let axis := s.turtle.direction
      { s with turtle := rotate_turtle t s.turtle (-p.branch_angle) axis }
  | '[' =>
      { s with
        stack := s.turtle :: s.stack
        turtle := { s.turtle with depth := s.turtle.depth + 1 } }
  | ']' =>
      match s.stack with
      | [] => s
      | st :: rest =>
          let found := s.tree.all_branches.find?
            (fun id =>
              ((branchAt s.tree.store id).end_pos - st.position).length
                < 1 / 1000)
          let cur := match found with
            | some id => some id
            | none => s.current
          { s with turtle := st, stack := rest, current := cur }
  | _ => s

/-- The state `LSystem::interpret` sets up before the symbol loop: a root
branch at the origin pointing along `(0,1,0)`, registered as tree root and
current branch, with the turtle moved to its end. -/
def interpretInit (p : LSystemParams) (r : Rng) : InterpState :=
  let root := mkBranch ⟨0, 0, 0⟩ ⟨0, 1, 0⟩ p.segment_length p.segment_radius
  let tree0 := Tree.set_root { store := [root] } 0
  { turtle := { position := root.end_pos }
    stack := []
    tree := tree0
    current := some 0
    rng := r }

/-- Model of `LSystem::interpret`: the preamble followed by the symbol loop. -/
def interpret (p : LSystemParams) (t : Trig) (trop : Option TropismSystem)
    (lstring : List Char) (r : Rng) : InterpState :=
  lstring.foldl (fun s c => processSymbol p t trop c s) (interpretInit p r)

/-! ## Derived notions used by the claims -/

/-- The replacement a single character receives in one rewriting pass:
its rule's right-hand side if the table has one, else itself. -/
def ruleApply (p : LSystemParams) (c : Char) : List Char :=
  match p.rules.find? (fun rule => rule.1 = c) with
  | some rule => rule.2
  | none => [c]

/-- One pure rewriting pass: left-to-right, non-overlapping per-character
substitution. -/
def rewriteOnce (p : LSystemParams) (input : List Char) : List Char :=
  (input.map (ruleApply p)).flatten

/-- The children of a store index. -/
def childIds (store : List Branch) (i : ℕ) : List ℕ := (branchAt store i).children

/-- Fueled breadth-first closure of the `children` relation. -/
def reachIter (store : List Branch) : ℕ → List ℕ → List ℕ
  | 0, seen => seen
  | n + 1, seen =>
      let next := ((seen.map (childIds store)).flatten).filter
        (fun j => ¬ seen.contains j)
      if next.isEmpty then seen else reachIter store n (seen ++ next)

/-- All store indices reachable from `root` through `children` links. -/
def reachableIds (store : List Branch) (root : ℕ) : List ℕ :=
  reachIter store (store.length + 1) [root]

/-- The six rotation symbols of the turtle alphabet. -/
def rotationSymbols : List Char := ['+', '-', '&', '^', '\\', '/']

/-- The orientation-frame invariant: both frame vectors have exact unit
square norm and are exactly orthogonal. -/
def FrameOrtho (st : TurtleState) : Prop :=
  st.direction.norm2 = 1 ∧ st.up.norm2 = 1 ∧ st.direction.dot st.up = 0

/-! ## Concrete instances used by witnesses and counterexamples -/

/-- Resource params for the pruning counterexamples: dim base light so that
a downward branch falls under the default `min_light_threshold`, zero
occlusion/competition radii so the pairwise loops contribute nothing, and a
zero grace period so depth 2 is prunable. -/
def paramsC1 : ResourceParams :=
  { base_light_level := 1 / 10
    occlusion_radius := 0
    competition_radius := 0
    pruning_grace_period := 0 }

/-- A four-branch chain root→1→2→3 in which branch 2 points downward (low
light, will be pruned) while its child 3 points upward (well lit,
survives). -/
def storeC1 : List Branch :=
  [ { start_pos := ⟨0, 0, 0⟩, direction := ⟨0, 1, 0⟩, length := 1, radius := 1,
      depth := 0, parent := none, children := [1] },
    { start_pos := ⟨0, 1, 0⟩, direction := ⟨0, 1, 0⟩, length := 1, radius := 1,
      depth := 1, parent := some 0, children := [2] },
    { start_pos := ⟨0, 2, 0⟩, direction := ⟨0, -1, 0⟩, length := 1, radius := 1,
      depth := 2, parent := some 1, children := [3] },
    { start_pos := ⟨0, 1, 0⟩, direction := ⟨0, 1, 0⟩, length := 1, radius := 1,
      depth := 3, parent := some 2, children := [] } ]

def treeC1 : Tree :=
  { store := storeC1, root := some 0, all_branches := [0, 1, 2, 3] }

def sysC1 : ResourceSystem := { params := paramsC1 }

/-- Resource params for the determinism counterexample: light competition
off (light capture stays at its 1.0 default), zero photosynthesis and full
maintenance cost so every branch runs a deficit, zero grace period. -/
def paramsC2 : ResourceParams :=
  { light_competition_enabled := false
    photosynthesis_efficiency := 0
    maintenance_cost := 1
    competition_radius := 0
    pruning_grace_period := 0 }

/-- A three-branch chain root→1→2; branch 2 (depth 2) is deep enough to be
pruned once its deficit has lasted two cycles. -/
def storeC2 : List Branch :=
  [ { start_pos := ⟨0, 0, 0⟩, direction := ⟨0, 1, 0⟩, length := 1, radius := 1,
      depth := 0, parent := none, children := [1] },
    { start_pos := ⟨0, 1, 0⟩, direction := ⟨0, 1, 0⟩, length := 1, radius := 1,
      depth := 1, parent := some 0, children := [2] },
    { start_pos := ⟨0, 2, 0⟩, direction := ⟨0, 1, 0⟩, length := 1, radius := 1,
      depth := 2, parent := some 1, children := [] } ]

def idsC2 : List ℕ := [0, 1, 2]

def sysC2 : ResourceSystem := { params := paramsC2 }

/-- Variant of `paramsC2` whose light threshold exceeds the 1.0 default
capture, so branch 2 is marked already on the first call. -/
def paramsC2w : ResourceParams :=
  { paramsC2 with min_light_threshold := 2 }

def sysC2w : ResourceSystem := { params := paramsC2w }

/-- Degenerate but Pythagorean trig pair (`sin = 0`, `cos = 1`). -/
def trigZero : Trig := ⟨fun _ => 0, fun _ => 1⟩

/-- A constant-zero draw stream. -/
def rngZero : Rng := ⟨fun _ => 0, 0⟩

/-- Interpreter params for the stack-pop counterexample. -/
def pC9 : LSystemParams :=
  { axm := ['F'], rules := [], iterations := 0, segment_length := 1,
    segment_radius := 1, branch_angle := 0, angle_variation := 0 }

/-- The turtle state saved by the `[` of `"f[F]"` (all fields default
except the position the `f` moved to). -/
def stSaved : TurtleState := { position := ⟨0, 2, 0⟩ }

/-- The interpreter state after processing `"f[F"`: the `f` moved the
turtle to `(0,2,0)` without drawing, so the position saved by `[` is no
branch's end position. -/
def sC9a : InterpState :=
  ("f[F".toList).foldl (fun s c => processSymbol pC9 trigZero none c s)
    (interpretInit pC9 rngZero)

/-- The state after the subsequent `]` pop. -/
def sC9b : InterpState := processSymbol pC9 trigZero none ']' sC9a

/-- The spec's grammar example (`axiom "F"`, rule `F → "F[+F]F"`), with the
iteration count left as a parameter. -/
def pEx (n : ℤ) : LSystemParams :=
  { axm := "F".toList, rules := [('F', "F[+F]F".toList)], iterations := n,
    segment_length := 1, segment_radius := 1, branch_angle := 25,
    angle_variation := 0 }

/-- The grammar example with stochastic variation and a seed switched on. -/
def pEx2var : LSystemParams :=
  { pEx 2 with stochastic_variation := 1 / 2, random_seed := 42 }

/-- A non-trivial draw stream starting at cursor 3. -/
def rngAlt : Rng := ⟨fun n => (n : ℚ) / 7, 3⟩

/-- A tropism system with all-default parameters and environment. -/
def tropC4 : TropismSystem := { params := {}, environment := {} }

/-- A resource state differing from the default in every field. -/
def stC10 : ResourceState :=
  { light_capture := 0, resource_balance := -1, accumulated_deficit := 5,
    marked_for_pruning := true, deficit_duration := 7 }

/-- A one-state resource system whose single state differs from the
default in every field. -/
def sysC10 : ResourceSystem := { params := {}, branch_states := [stC10] }

/-- One of each rotation symbol, for the orientation-invariant witness. -/
def symsC8 : List Char := ['+', '-', '&', '^', '\\', '/']

/-- Interpreter params for the orientation-invariant witness. -/
def pC8 : LSystemParams :=
  { axm := [], rules := [], iterations := 0, segment_length := 1,
    segment_radius := 1, branch_angle := 30, angle_variation := 5 }

/-- A depth-5 branch for the pruning-predicate witness. -/
def brC3 : Branch :=
  { start_pos := ⟨0, 0, 0⟩, direction := ⟨0, 1, 0⟩, length := 1, radius := 1,
    depth := 5 }

/-- A starved resource state for the pruning-predicate witness. -/
def stC3 : ResourceState := { light_capture := 1 / 100 }

/-! ## Helper lemmas -/

theorem ratSqrt_nonneg (q : ℚ) : 0 ≤ ratSqrt q := by
  unfold ratSqrt
  split
  · exact le_refl 0
  · positivity

theorem not_ratSqrt_lt_zero (q : ℚ) : ¬ ratSqrt q < 0 :=
  not_lt.2 (ratSqrt_nonneg q)

theorem ratSqrt_one : ratSqrt 1 = 1 := by
  unfold ratSqrt
  norm_num

theorem Vec3.add_def (a b : Vec3) : a + b = ⟨a.x + b.x, a.y + b.y, a.z + b.z⟩ := rfl

theorem Vec3.sub_def (a b : Vec3) : a - b = ⟨a.x - b.x, a.y - b.y, a.z - b.z⟩ := rfl

/-- A vector of exact unit square-norm is fixed by `normalized`
(`ratSqrt 1 = 1`, which is not below the `1e-6` guard). -/
theorem Vec3.normalized_of_norm2_one {a : Vec3} (h : a.norm2 = 1) :
    a.normalized = a := by
  unfold normalized length
  rw [h, ratSqrt_one]
  norm_num [divQ]

/-- Lagrange identity for the cross product, used for the turtle's
`right = direction.cross(up).normalized()` axis. -/
theorem Vec3.cross_norm2 (a b : Vec3) :
    (a.cross b).norm2 = a.norm2 * b.norm2 - (a.dot b) * (a.dot b) := by
  simp only [cross, norm2, dot]
  ring

/-- Rotation by a unit quaternion preserves dot products (hence lengths and
angles); the cofactor of `‖q‖² - 1` in the polynomial identity is
`4 (q⃗ × v) · (q⃗ × u)`. -/
theorem Quat.rotate_dot (q : Quat) (hq : q.norm2 = 1) (v u : Vec3) :
    (q.rotate v).dot (q.rotate u) = v.dot u := by
  obtain ⟨w, x, y, z⟩ := q
  obtain ⟨vx, vy, vz⟩ := v
  obtain ⟨ux, uy, uz⟩ := u
  simp only [norm2] at hq
  simp only [rotate, Vec3.cross, Vec3.smul, Vec3.dot, Vec3.add_def]
  linear_combination (4 * ((y * vz - z * vy) * (y * uz - z * uy) +
    (z * vx - x * vz) * (z * ux - x * uz) +
    (x * vy - y * vx) * (x * uy - y * ux))) * hq

theorem modifyAt_length {α : Type} (l : List α) (n : ℕ) (f : α → α) :
    (modifyAt l n f).length = l.length := by
  induction l generalizing n with
  | nil => rfl
  | cons a l ih =>
    cases n with
    | zero => rfl
    | succ n => simpa [modifyAt] using ih n

theorem modifyAt_getD {α : Type} (l : List α) (n : ℕ) (f : α → α) (i : ℕ)
    (d : α) :
    (modifyAt l n f).getD i d =
      if i = n ∧ n < l.length then f (l.getD i d) else l.getD i d := by
  induction l generalizing n i with
  | nil => simp [modifyAt]
  | cons a l ih =>
    cases n with
    | zero =>
      cases i with
      | zero => simp [modifyAt]
      | succ i => simp [modifyAt]
    | succ n =>
      cases i with
      | zero => simp [modifyAt]
      | succ i =>
        simp only [modifyAt, List.getD_cons_succ, ih n i, List.length_cons]
        by_cases h : i = n ∧ n < l.length
        · rw [if_pos h, if_pos (by omega)]
        · rw [if_neg h, if_neg (by omega)]

theorem norm2_eq_dot (a : Vec3) : a.norm2 = a.dot a := rfl

/-- One loop step appends exactly the character's replacement to the
output, whatever the RNG holds: both arms of the stochastic conditional
append the same string. -/
theorem apply_rules_step_fst (p : LSystemParams) (acc : List Char × Rng)
    (c : Char) : (apply_rules_step p acc c).1 = acc.1 ++ ruleApply p c := by
  unfold apply_rules_step ruleApply
  cases p.rules.find? (fun rule => rule.1 = c) with
  | none => rfl
  | some rule => by_cases h : 0 < p.stochastic_variation <;> simp [h]

/-- Model of `apply_rules` returns the pure pass, whatever the RNG holds. -/
theorem apply_rules_fst (p : LSystemParams) (input : List Char) (r : Rng) :
    (apply_rules p input r).1 = rewriteOnce p input := by
  suffices h : ∀ (input : List Char) (acc : List Char × Rng),
      (input.foldl (apply_rules_step p) acc).1 = acc.1 ++ rewriteOnce p input by
    simpa [apply_rules] using h input ([], r)
  intro input
  induction input with
  | nil => intro acc; simp [rewriteOnce]
  | cons c cs ih =>
    intro acc
    rw [List.foldl_cons, ih (apply_rules_step p acc c), apply_rules_step_fst]
    simp [rewriteOnce, List.append_assoc]

/-- The generated string is the pure pass iterated `iterations.toNat`
times; in particular it does not depend on the RNG stream. -/
theorem generate_fst (p : LSystemParams) (r : Rng) :
    (generate p r).1 = (rewriteOnce p)^[p.iterations.toNat] p.axm := by
  suffices h : ∀ (n : ℕ) (r : Rng),
      (((List.range n).foldl (fun acc _ => apply_rules p acc.1 acc.2)
        (p.axm, r)).1) = (rewriteOnce p)^[n] p.axm by
    simpa [generate] using h p.iterations.toNat r
  intro n
  induction n with
  | zero => intro r; simp
  | succ n ih =>
    intro r
    rw [List.range_succ, List.foldl_append]
    simp only [List.foldl_cons, List.foldl_nil]
    rw [Function.iterate_succ_apply', apply_rules_fst, ih r]

theorem zipWith_getD {α β γ : Type} {f : α → β → γ} :
    ∀ (as : List α) (bs : List β) (i : ℕ) (da : α) (db : β) (dc : γ),
      i < as.length → i < bs.length →
      (List.zipWith f as bs).getD i dc = f (as.getD i da) (bs.getD i db) := by
  intro as
  induction as with
  | nil => intro bs i da db dc h1 h2; simp at h1
  | cons a as ih =>
    intro bs i da db dc h1 h2
    cases bs with
    | nil => simp at h2
    | cons b bs =>
      cases i with
      | zero => rfl
      | succ i =>
        simp only [List.zipWith_cons_cons, List.getD_cons_succ]
        exact ih bs i da db dc (by simpa using h1) (by simpa using h2)

namespace ResourceSystem

theorem mem_identify (sys : ResourceSystem) (i : ℕ) :
    i ∈ sys.identify_pruned_branches ↔
      i < sys.branch_states.length ∧
        (sys.branch_states.getD i {}).marked_for_pruning = true := by
  simp [identify_pruned_branches, List.mem_filter, List.mem_range]

theorem calculate_light_capture_length (p : ResourceParams)
    (store : List Branch) (ids : List ℕ) (states : List ResourceState) :
    (calculate_light_capture p store ids states).length =
      min ids.length states.length := by
  simp [calculate_light_capture]

theorem apply_competition_length (p : ResourceParams) (store : List Branch)
    (ids : List ℕ) (states : List ResourceState)
    (h : states.length = ids.length) :
    (apply_competition p store ids states).length = ids.length := by
  unfold apply_competition
  split <;> simp [h]

theorem calculate_resource_flow_length (p : ResourceParams)
    (store : List Branch) (ids : List ℕ) (states : List ResourceState) :
    (calculate_resource_flow p store ids states).length =
      min ids.length states.length := by
  simp [calculate_resource_flow]

theorem evaluate_pruning_length (p : ResourceParams) (store : List Branch)
    (ids : List ℕ) (states : List ResourceState) :
    (evaluate_pruning p store ids states).length =
      min ids.length states.length := by
  simp [evaluate_pruning]

/-- The marked flag is untouched by the light-capture pass. -/
theorem calculate_light_capture_marked (p : ResourceParams)
    (store : List Branch) (ids : List ℕ) (states : List ResourceState)
    (i : ℕ) (h1 : i < ids.length) (h2 : i < states.length) :
    ((calculate_light_capture p store ids states).getD i {}).marked_for_pruning
      = (states.getD i {}).marked_for_pruning := by
  simp only [calculate_light_capture]
  rw [zipWith_getD ids states i 0 ({} : ResourceState) ({} : ResourceState) h1 h2]
  rfl

/-- The marked flag is untouched by the competition pass. -/
theorem apply_competition_marked (p : ResourceParams) (store : List Branch)
    (ids : List ℕ) (states : List ResourceState) (i : ℕ)
    (h1 : i < ids.length) (h2 : i < states.length) :
    ((apply_competition p store ids states).getD i {}).marked_for_pruning
      = (states.getD i {}).marked_for_pruning := by
  unfold apply_competition
  split
  · rfl
  · rw [zipWith_getD ids states i 0 ({} : ResourceState) ({} : ResourceState) h1 h2]

/-- The marked flag is untouched by the resource-flow pass. -/
theorem calculate_resource_flow_marked (p : ResourceParams)
    (store : List Branch) (ids : List ℕ) (states : List ResourceState)
    (i : ℕ) (h1 : i < ids.length) (h2 : i < states.length) :
    ((calculate_resource_flow p store ids states).getD i {}).marked_for_pruning
      = (states.getD i {}).marked_for_pruning := by
  unfold calculate_resource_flow
  rw [zipWith_getD ids states i 0 ({} : ResourceState) ({} : ResourceState) h1 h2]
  simp only [resource_flow_step]
  split <;> rfl

/-- The pruning pass only ever raises the marked flag. -/
theorem evaluate_pruning_marked_mono (p : ResourceParams)
    (store : List Branch) (ids : List ℕ) (states : List ResourceState)
    (i : ℕ) (h1 : i < ids.length) (h2 : i < states.length)
    (h : (states.getD i {}).marked_for_pruning = true) :
    ((evaluate_pruning p store ids states).getD i {}).marked_for_pruning
      = true := by
  unfold evaluate_pruning
  rw [zipWith_getD ids states i 0 ({} : ResourceState) ({} : ResourceState) h1 h2]
  split
  · rfl
  · exact h

/-- The four-stage pipeline preserves the one-state-per-branch length. -/
theorem resource_pipeline_length (p : ResourceParams) (store : List Branch)
    (ids : List ℕ) (st0 : List ResourceState)
    (h : st0.length = ids.length) :
    (resource_pipeline p store ids st0).length = ids.length := by
  simp only [resource_pipeline]
  have h1 : (if p.light_competition_enabled then
      calculate_light_capture p store ids st0 else st0).length = ids.length := by
    split
    · rw [calculate_light_capture_length]; omega
    · exact h
  have h2 := apply_competition_length p store ids _ h1
  have h3 : (calculate_resource_flow p store ids
      (apply_competition p store ids
        (if p.light_competition_enabled then
          calculate_light_capture p store ids st0 else st0))).length
      = ids.length := by
    rw [calculate_resource_flow_length]; omega
  split
  · rw [evaluate_pruning_length]; omega
  · exact h3

/-- The four-stage pipeline never clears a marked flag. -/
theorem resource_pipeline_marked_mono (p : ResourceParams)
    (store : List Branch) (ids : List ℕ) (st0 : List ResourceState)
    (h : st0.length = ids.length) (i : ℕ) (h1 : i < ids.length)
    (hm : (st0.getD i {}).marked_for_pruning = true) :
    ((resource_pipeline p store ids st0).getD i {}).marked_for_pruning
      = true := by
  simp only [resource_pipeline]
  have l1 : (if p.light_competition_enabled then
      calculate_light_capture p store ids st0 else st0).length = ids.length := by
    split
    · rw [calculate_light_capture_length]; omega
    · exact h
  have m1 : ((if p.light_competition_enabled then
      calculate_light_capture p store ids st0 else st0).getD i
        {}).marked_for_pruning = true := by
    split
    · rw [calculate_light_capture_marked p store ids st0 i h1 (by omega)]
      exact hm
    · exact hm
  have l2 := apply_competition_length p store ids _ l1
  have m2 : ((apply_competition p store ids
      (if p.light_competition_enabled then
        calculate_light_capture p store ids st0 else st0)).getD i
        {}).marked_for_pruning = true := by
    rw [apply_competition_marked p store ids _ i h1 (by omega)]
    exact m1
  have l3 : (calculate_resource_flow p store ids
      (apply_competition p store ids
        (if p.light_competition_enabled then
          calculate_light_capture p store ids st0 else st0))).length
      = ids.length := by
    rw [calculate_resource_flow_length]; omega
  have m3 : ((calculate_resource_flow p store ids
      (apply_competition p store ids
        (if p.light_competition_enabled then
          calculate_light_capture p store ids st0 else st0))).getD i
        {}).marked_for_pruning = true := by
    rw [calculate_resource_flow_marked p store ids _ i h1 (by omega)]
    exact m2
  split
  · exact evaluate_pruning_marked_mono p store ids _ i h1 (by omega) m3
  · exact m3

/-- After a call on a non-empty branch list, the state vector has exactly
one entry per branch. -/
theorem calculate_resources_length (store : List Branch) (ids : List ℕ)
    (sys : ResourceSystem) (h : ids ≠ []) :
    (calculate_resources store ids sys).1.branch_states.length = ids.length := by
  unfold calculate_resources
  rw [if_neg (by simpa [List.isEmpty_iff] using h)]
  apply resource_pipeline_length
  split
  · simp
  · omega

end ResourceSystem

theorem branchAt_modifyAt (s : List Branch) (n : ℕ) (f : Branch → Branch)
    (i : ℕ) :
    branchAt (modifyAt s n f) i =
      if i = n ∧ n < s.length then f (branchAt s i) else branchAt s i :=
  modifyAt_getD s n f i defaultBranch

theorem branchAt_of_le (s : List Branch) (i : ℕ) (h : s.length ≤ i) :
    branchAt s i = defaultBranch :=
  List.getD_eq_default s defaultBranch h

/-- The light-exposure write-back touches no link field. -/
theorem write_light_parent (l : List (ℕ × ResourceState))
    (store : List Branch) (i : ℕ) :
    (branchAt (ResourceSystem.write_light_exposure store l) i).parent =
      (branchAt store i).parent := by
  induction l generalizing store with
  | nil => rfl
  | cons a l ih =>
    simp only [ResourceSystem.write_light_exposure, List.foldl_cons] at *
    rw [ih, branchAt_modifyAt]
    split <;> rfl

/-- The light-exposure write-back touches no child list either. -/
theorem write_light_children (l : List (ℕ × ResourceState))
    (store : List Branch) (i : ℕ) :
    (branchAt (ResourceSystem.write_light_exposure store l) i).children =
      (branchAt store i).children := by
  induction l generalizing store with
  | nil => rfl
  | cons a l ih =>
    simp only [ResourceSystem.write_light_exposure, List.foldl_cons] at *
    rw [ih, branchAt_modifyAt]
    split <;> rfl

theorem detachFromParent_parent (store : List Branch) (bid i : ℕ) :
    (branchAt (detachFromParent store bid) i).parent =
      (branchAt store i).parent := by
  unfold detachFromParent
  cases (branchAt store bid).parent with
  | none => rfl
  | some q =>
    rw [branchAt_modifyAt]
    split <;> rfl

theorem detachFromParent_children_subset (store : List Branch) (bid q j : ℕ)
    (h : j ∈ (branchAt (detachFromParent store bid) q).children) :
    j ∈ (branchAt store q).children := by
  unfold detachFromParent at h
  cases hp : (branchAt store bid).parent with
  | none => rw [hp] at h; exact h
  | some pq =>
    rw [hp, branchAt_modifyAt] at h
    split at h
    · exact (List.mem_filter.1 h).1
    · exact h

theorem detachFromParent_not_mem (store : List Branch) (bid pq : ℕ)
    (hp : (branchAt store bid).parent = some pq) :
    bid ∉ (branchAt (detachFromParent store bid) pq).children := by
  unfold detachFromParent
  rw [hp, branchAt_modifyAt]
  split
  · intro hmem
    have := (List.mem_filter.1 hmem).2
    simp at this
  · intro hmem
    rename_i hcond
    have hge : store.length ≤ pq := by
      rcases Nat.lt_or_ge pq store.length with h | h
      · exact absurd ⟨rfl, h⟩ hcond
      · exact h
    rw [branchAt_of_le store pq hge] at hmem
    simp [defaultBranch, mkBranch] at hmem

theorem detachStep_parent (ab : List ℕ) (s : List Branch) (pos i : ℕ) :
    (branchAt (detachStep ab s pos) i).parent = (branchAt s i).parent := by
  unfold detachStep
  split
  · exact detachFromParent_parent s _ i
  · rfl

theorem detachStep_children_subset (ab : List ℕ) (s : List Branch)
    (pos q j : ℕ)
    (h : j ∈ (branchAt (detachStep ab s pos) q).children) :
    j ∈ (branchAt s q).children := by
  unfold detachStep at h
  split at h
  · exact detachFromParent_children_subset s _ q j h
  · exact h

theorem foldDetach_parent (ab : List ℕ) (l : List ℕ) :
    ∀ (s : List Branch) (i : ℕ),
      (branchAt (l.foldl (detachStep ab) s) i).parent =
        (branchAt s i).parent := by
  induction l with
  | nil => intro s i; rfl
  | cons a l ih =>
    intro s i
    rw [List.foldl_cons, ih, detachStep_parent]

theorem foldDetach_children_subset (ab : List ℕ) (l : List ℕ) :
    ∀ (s : List Branch) (q j : ℕ),
      j ∈ (branchAt (l.foldl (detachStep ab) s) q).children →
        j ∈ (branchAt s q).children := by
  induction l with
  | nil => intro s q j h; exact h
  | cons a l ih =>
    intro s q j h
    rw [List.foldl_cons] at h
    exact detachStep_children_subset ab s a q j (ih _ q j h)

/-- Once the detach loop has processed a pruned position, the pruned branch
is gone from its parent's child list and never reappears. -/
theorem foldDetach_kills (ab : List ℕ) (pos : ℕ) (hlt : pos < ab.length)
    (pq : ℕ) :
    ∀ (l : List ℕ) (s : List Branch), pos ∈ l →
      (branchAt s (ab.getD pos 0)).parent = some pq →
      ab.getD pos 0 ∉ (branchAt (l.foldl (detachStep ab) s) pq).children := by
  intro l
  induction l with
  | nil => intro s hin _; cases hin
  | cons a l ih =>
    intro s hin hp
    rw [List.foldl_cons]
    rcases List.mem_cons.1 hin with h | h
    · subst h
      intro hmem
      have hsub := foldDetach_children_subset ab l (detachStep ab s pos) pq _
        hmem
      unfold detachStep at hsub
      rw [if_pos hlt] at hsub
      exact detachFromParent_not_mem s _ pq hp hsub
    · apply ih (detachStep ab s a) h
      rw [detachStep_parent]
      exact hp

/-- The survivors list is a sublist of the original flat list. -/
theorem surviving_sublist (l : List ℕ) (pruned : List ℕ) :
    ((l.enum.filter (fun q => ¬ pruned.contains q.1)).map Prod.snd).Sublist
      l := by
  have h1 : (l.enum.filter (fun q => ¬ pruned.contains q.1)).Sublist l.enum :=
    List.filter_sublist _
  have h2 := h1.map Prod.snd
  rw [List.enum_map_snd] at h2
  exact h2

/-- The branch heap returned by `calculate_resources` carries the same
parent links as the input heap (only `light_exposure` is written). -/
theorem calculate_resources_store_parent (store : List Branch) (ids : List ℕ)
    (sys : ResourceSystem) (i : ℕ) :
    (branchAt (ResourceSystem.calculate_resources store ids sys).2 i).parent =
      (branchAt store i).parent := by
  unfold ResourceSystem.calculate_resources
  split
  · rfl
  · exact write_light_parent _ store i

/-- Likewise the heap returned by `calculate_resources` carries the same child lists. -/
theorem calculate_resources_store_children (store : List Branch)
    (ids : List ℕ) (sys : ResourceSystem) (i : ℕ) :
    (branchAt (ResourceSystem.calculate_resources store ids sys).2 i).children
      = (branchAt store i).children := by
  unfold ResourceSystem.calculate_resources
  split
  · rfl
  · exact write_light_children _ store i

theorem write_light_length (l : List (ℕ × ResourceState))
    (store : List Branch) :
    (ResourceSystem.write_light_exposure store l).length = store.length := by
  induction l generalizing store with
  | nil => rfl
  | cons a l ih =>
    simp only [ResourceSystem.write_light_exposure, List.foldl_cons] at *
    rw [ih, modifyAt_length]

theorem calculate_resources_store_length (store : List Branch) (ids : List ℕ)
    (sys : ResourceSystem) :
    (ResourceSystem.calculate_resources store ids sys).2.length =
      store.length := by
  unfold ResourceSystem.calculate_resources
  split
  · rfl
  · exact write_light_length _ store

theorem detachFromParent_length (store : List Branch) (bid : ℕ) :
    (detachFromParent store bid).length = store.length := by
  unfold detachFromParent
  cases (branchAt store bid).parent with
  | none => rfl
  | some q => exact modifyAt_length store q _

theorem detachStep_length (ab : List ℕ) (s : List Branch) (pos : ℕ) :
    (detachStep ab s pos).length = s.length := by
  unfold detachStep
  split
  · exact detachFromParent_length s _
  · rfl

/-- On a non-empty tree, the resource system coming back from
`apply_resource_simulation` is exactly the one `calculate_resources`
produced (pruning never touches the state vector). -/
theorem apply_resource_simulation_snd (t : Tree) (sys : ResourceSystem)
    (hne : t.all_branches ≠ []) :
    (t.apply_resource_simulation sys).2 =
      (ResourceSystem.calculate_resources t.store t.all_branches sys).1 := by
  simp only [Tree.apply_resource_simulation]
  rw [if_neg (by simpa [List.isEmpty_iff] using hne)]
  split <;> rfl

/-- C1 (amended): on a duplicate-free, non-empty tree,
`Tree::apply_resource_simulation` rebuilds the flat list as exactly the
non-pruned positions of the old flat list (so every surviving entry appears
exactly once) and removes every pruned branch from its parent's child list.
(The pruned branches' own surviving descendants stay in the flat list even
though they are no longer reachable from the root — see the
counterexample.) -/
theorem C1_prune_rebuild_and_detach (t : Tree) (sys : ResourceSystem)
    (hne : t.all_branches ≠ []) (hnd : t.all_branches.Nodup) :
    (t.apply_resource_simulation sys).1.all_branches =
      (t.all_branches.enum.filter
        (fun q => ¬ ((ResourceSystem.calculate_resources t.store
          t.all_branches sys).1.identify_pruned_branches).contains q.1)).map
        Prod.snd ∧
    (t.apply_resource_simulation sys).1.all_branches.Nodup ∧
    (∀ pos ∈ (ResourceSystem.calculate_resources t.store t.all_branches
        sys).1.identify_pruned_branches,
      pos < t.all_branches.length →
      ∀ pq, (branchAt t.store (t.all_branches.getD pos 0)).parent = some pq →
        t.all_branches.getD pos 0 ∉
          (branchAt (t.apply_resource_simulation sys).1.store pq).children) := by
  have hne' : t.all_branches.isEmpty = false := by
    simpa [List.isEmpty_iff] using hne
  by_cases hp : ((ResourceSystem.calculate_resources t.store t.all_branches
      sys).1.identify_pruned_branches).isEmpty = true
  · have hplist : (ResourceSystem.calculate_resources t.store t.all_branches
        sys).1.identify_pruned_branches = [] := by
      simpa [List.isEmpty_iff] using hp
    have happ : t.apply_resource_simulation sys =
        ({ t with store :=
            (ResourceSystem.calculate_resources t.store t.all_branches
              sys).2 },
         (ResourceSystem.calculate_resources t.store t.all_branches sys).1) := by
      unfold Tree.apply_resource_simulation
      rw [if_neg (by simp [hne']), if_pos hp]
    refine ⟨?_, ?_, ?_⟩
    · rw [happ, hplist]
      simp
    · rw [happ]
      exact hnd
    · intro pos hmem
      rw [hplist] at hmem
      cases hmem
  · have happ : t.apply_resource_simulation sys =
        ({ t with
            store := ((ResourceSystem.calculate_resources t.store
              t.all_branches sys).1.identify_pruned_branches).foldl
              (detachStep t.all_branches)
              (ResourceSystem.calculate_resources t.store t.all_branches
                sys).2
            all_branches := (t.all_branches.enum.filter
              (fun q => ¬ ((ResourceSystem.calculate_resources t.store
                t.all_branches sys).1.identify_pruned_branches).contains
                q.1)).map Prod.snd },
         (ResourceSystem.calculate_resources t.store t.all_branches sys).1) := by
      unfold Tree.apply_resource_simulation
      rw [if_neg (by simp [hne']), if_neg hp]
    refine ⟨?_, ?_, ?_⟩
    · rw [happ]
    · rw [happ]
      exact List.Nodup.sublist (surviving_sublist _ _) hnd
    · intro pos hmem hlt pq hpq
      rw [happ]
      apply foldDetach_kills t.all_branches pos hlt pq _ _ hmem
      rw [calculate_resources_store_parent]
      exact hpq

/-- C2 (amended): re-running `calculate_resources` on an unchanged tree can
only grow the pruning set — `marked_for_pruning` is never cleared and the
state vector is not reset when its size already matches — so every branch
pruned by the first call is still pruned by the second (the counterexample
shows the inclusion can be strict because `deficit_duration` keeps
accumulating across calls). -/
theorem C2_pruning_set_monotone (store : List Branch) (ids : List ℕ)
    (sys : ResourceSystem) (i : ℕ)
    (h : i ∈ (ResourceSystem.calculate_resources store ids
      sys).1.identify_pruned_branches) :
    i ∈ (ResourceSystem.calculate_resources store ids
      (ResourceSystem.calculate_resources store ids
        sys).1).1.identify_pruned_branches := by
  by_cases hids : ids = []
  · subst hids
    simpa [ResourceSystem.calculate_resources] using h
  · have hlen : (ResourceSystem.calculate_resources store ids
        sys).1.branch_states.length = ids.length :=
      ResourceSystem.calculate_resources_length store ids sys hids
    rw [ResourceSystem.mem_identify] at h ⊢
    obtain ⟨hilt, hmark⟩ := h
    have hilt' : i < ids.length := by omega
    refine ⟨?_, ?_⟩
    · rw [ResourceSystem.calculate_resources_length store ids _ hids]
      exact hilt'
    · conv_lhs =>
        rw [ResourceSystem.calculate_resources]
      rw [if_neg (by simp [List.isEmpty_iff, hids])]
      dsimp only
      rw [if_neg (by omega)]
      exact ResourceSystem.resource_pipeline_marked_mono _ store ids _ hlen i
        hilt' hmark

/-- C2 (counterexample): on the unchanged three-branch chain `storeC2`, the
first `calculate_resources` call marks nothing while the second marks
branch 2 — its resource deficit needs two cycles of `deficit_duration`
before `should_prune` fires — so the two calls' pruning sets differ. -/
theorem C2_counterexample :
    ResourceSystem.identify_pruned_branches
      (ResourceSystem.calculate_resources storeC2 idsC2 sysC2).1 = [] ∧
    ResourceSystem.identify_pruned_branches
      (ResourceSystem.calculate_resources storeC2 idsC2
        (ResourceSystem.calculate_resources storeC2 idsC2 sysC2).1).1 = [2] := by
  constructor <;>
    norm_num [ResourceSystem.calculate_resources,
      ResourceSystem.identify_pruned_branches, ResourceSystem.resource_pipeline,
      ResourceSystem.calculate_light_capture, ResourceSystem.apply_competition,
      ResourceSystem.calculate_resource_flow, ResourceSystem.evaluate_pruning,
      ResourceSystem.resource_flow_step, ResourceSystem.should_prune,
      ResourceSystem.calculate_photosynthesis,
      ResourceSystem.calculate_maintenance_cost,
      ResourceSystem.calculate_competition_factor, ResourceSystem.piLit,
      ResourceSystem.maxBranchesFull, ResourceSystem.light_capture_step,
      ResourceSystem.calculate_occlusion, ResourceSystem.sampling_occlusion,
      storeC2, idsC2, sysC2, paramsC2, branchAt, Branch.end_pos, defaultBranch,
      mkBranch, Vec3.sub_def, Vec3.length, Vec3.norm2, Vec3.smul, Vec3.add_def,
      Vec3.normalized, Vec3.dot, Vec3.divQ, clampQ, not_ratSqrt_lt_zero,
      List.range_succ, min_def, max_def]

set_option maxHeartbeats 1000000 in
/-- C1 (counterexample): after `apply_resource_simulation` prunes branch 2
of `treeC1`, its surviving child (store index 3) is still in the rebuilt
flat list but is no longer reachable from the root through `children`
links, refuting the flat-list/ownership consistency invariant. -/
theorem C1_counterexample :
    3 ∈ (treeC1.apply_resource_simulation sysC1).1.all_branches ∧
    (treeC1.apply_resource_simulation sysC1).1.root = some 0 ∧
    3 ∉ reachableIds (treeC1.apply_resource_simulation sysC1).1.store 0 := by
  have hpruned : (ResourceSystem.calculate_resources treeC1.store
      treeC1.all_branches sysC1).1.identify_pruned_branches = [2] := by
    norm_num [ResourceSystem.calculate_resources,
      ResourceSystem.identify_pruned_branches, ResourceSystem.resource_pipeline,
      ResourceSystem.calculate_light_capture, ResourceSystem.apply_competition,
      ResourceSystem.calculate_resource_flow, ResourceSystem.evaluate_pruning,
      ResourceSystem.resource_flow_step, ResourceSystem.should_prune,
      ResourceSystem.calculate_photosynthesis,
      ResourceSystem.calculate_maintenance_cost,
      ResourceSystem.calculate_competition_factor, ResourceSystem.piLit,
      ResourceSystem.maxBranchesFull, ResourceSystem.light_capture_step,
      ResourceSystem.calculate_occlusion, ResourceSystem.sampling_occlusion,
      treeC1, storeC1, sysC1, paramsC1, branchAt, Branch.end_pos,
      defaultBranch, mkBranch, Vec3.sub_def, Vec3.length, Vec3.norm2,
      Vec3.smul, Vec3.add_def, Vec3.normalized, Vec3.dot, Vec3.divQ, clampQ,
      not_ratSqrt_lt_zero, List.range_succ, min_def, max_def]
  have hne' : treeC1.all_branches.isEmpty = false := by norm_num [treeC1]
  have happ : treeC1.apply_resource_simulation sysC1 =
      ({ treeC1 with
          store := [2].foldl (detachStep treeC1.all_branches)
            (ResourceSystem.calculate_resources treeC1.store
              treeC1.all_branches sysC1).2
          all_branches := [0, 1, 3] },
       (ResourceSystem.calculate_resources treeC1.store treeC1.all_branches
         sysC1).1) := by
    simp only [Tree.apply_resource_simulation]
    rw [if_neg (by simp [hne']), hpruned]
    norm_num [treeC1, List.enum, List.enumFrom]
  have hgd : treeC1.all_branches.getD 2 0 = 2 := by norm_num [treeC1]
  have hpar : (branchAt (ResourceSystem.calculate_resources treeC1.store
      treeC1.all_branches sysC1).2 2).parent = some 1 := by
    rw [calculate_resources_store_parent]
    norm_num [treeC1, storeC1, branchAt]
  have hsl : (ResourceSystem.calculate_resources treeC1.store
      treeC1.all_branches sysC1).2.length = 4 := by
    rw [calculate_resources_store_length]
    norm_num [treeC1, storeC1]
  have hch0 : childIds ([2].foldl (detachStep treeC1.all_branches)
      (ResourceSystem.calculate_resources treeC1.store treeC1.all_branches
        sysC1).2) 0 = [1] := by
    rw [List.foldl_cons, List.foldl_nil]
    unfold childIds detachStep
    rw [if_pos (by norm_num [treeC1]), hgd]
    unfold detachFromParent
    rw [hpar, branchAt_modifyAt, if_neg (by norm_num)]
    rw [calculate_resources_store_children]
    norm_num [treeC1, storeC1, branchAt]
  have hch1 : childIds ([2].foldl (detachStep treeC1.all_branches)
      (ResourceSystem.calculate_resources treeC1.store treeC1.all_branches
        sysC1).2) 1 = [] := by
    rw [List.foldl_cons, List.foldl_nil]
    unfold childIds detachStep
    rw [if_pos (by norm_num [treeC1]), hgd]
    unfold detachFromParent
    rw [hpar, branchAt_modifyAt, if_pos (by exact ⟨rfl, by omega⟩)]
    rw [calculate_resources_store_children]
    norm_num [treeC1, storeC1, branchAt]
  have hlen2 : ([2].foldl (detachStep treeC1.all_branches)
      (ResourceSystem.calculate_resources treeC1.store treeC1.all_branches
        sysC1).2).length = 4 := by
    rw [List.foldl_cons, List.foldl_nil, detachStep_length, hsl]
  refine ⟨?_, ?_, ?_⟩
  · rw [happ]
    norm_num
  · rw [happ]
    norm_num [treeC1]
  · rw [happ]
    show 3 ∉ reachableIds ([2].foldl (detachStep treeC1.all_branches)
      (ResourceSystem.calculate_resources treeC1.store treeC1.all_branches
        sysC1).2) 0
    generalize hgen : [2].foldl (detachStep treeC1.all_branches)
      (ResourceSystem.calculate_resources treeC1.store treeC1.all_branches
        sysC1).2 = st2 at hch0 hch1 hlen2 ⊢
    unfold reachableIds
    rw [hlen2]
    norm_num [reachIter, hch0, hch1]

/-- C1 (witness): the amended statement instantiated on the concrete
pruning scenario `treeC1`/`sysC1`. -/
theorem C1_witness :
    (treeC1.apply_resource_simulation sysC1).1.all_branches =
      (treeC1.all_branches.enum.filter
        (fun q => ¬ ((ResourceSystem.calculate_resources treeC1.store
          treeC1.all_branches sysC1).1.identify_pruned_branches).contains
          q.1)).map Prod.snd ∧
    (treeC1.apply_resource_simulation sysC1).1.all_branches.Nodup ∧
    (∀ pos ∈ (ResourceSystem.calculate_resources treeC1.store
        treeC1.all_branches sysC1).1.identify_pruned_branches,
      pos < treeC1.all_branches.length →
      ∀ pq, (branchAt treeC1.store
          (treeC1.all_branches.getD pos 0)).parent = some pq →
        treeC1.all_branches.getD pos 0 ∉
          (branchAt (treeC1.apply_resource_simulation sysC1).1.store
            pq).children) :=
  C1_prune_rebuild_and_detach treeC1 sysC1 (by decide) (by decide)

/-- C7 (amended): after `calculate_resources` on a non-empty branch list
the state count equals the branch count, and after a full
`apply_resource_simulation` the state count equals the tree's branch count
*before* the call — the state vector is never shrunk by pruning. -/
theorem C7_state_count (store : List Branch) (ids : List ℕ)
    (sys : ResourceSystem) (t : Tree) (sys2 : ResourceSystem)
    (h1 : ids ≠ []) (h2 : t.all_branches ≠ []) :
    (ResourceSystem.calculate_resources store ids
        sys).1.branch_states.length = ids.length ∧
    (t.apply_resource_simulation sys2).2.branch_states.length =
      t.all_branches.length := by
  constructor
  · exact ResourceSystem.calculate_resources_length store ids sys h1
  · rw [apply_resource_simulation_snd t sys2 h2]
    exact ResourceSystem.calculate_resources_length _ _ _ h2

/-- C7 (witness): the amended statement instantiated on `storeC2`/`idsC2`
and on the pruning scenario `treeC1`/`sysC1`. -/
theorem C7_witness :
    (ResourceSystem.calculate_resources storeC2 idsC2
        sysC2).1.branch_states.length = idsC2.length ∧
    (treeC1.apply_resource_simulation sysC1).2.branch_states.length =
      treeC1.all_branches.length :=
  C7_state_count storeC2 idsC2 sysC2 treeC1 sysC1 (by decide) (by decide)

set_option maxHeartbeats 1000000 in
/-- C7 (counterexample): on `treeC1` the full simulation prunes one branch,
leaving four `ResourceState`s but only three branches — the state count no
longer matches the tree's current branch count. -/
theorem C7_counterexample :
    (treeC1.apply_resource_simulation sysC1).2.branch_states.length = 4 ∧
    (treeC1.apply_resource_simulation sysC1).1.all_branches.length = 3 ∧
    (treeC1.apply_resource_simulation sysC1).2.branch_states.length ≠
      (treeC1.apply_resource_simulation sysC1).1.all_branches.length := by
  have hpruned : (ResourceSystem.calculate_resources treeC1.store
      treeC1.all_branches sysC1).1.identify_pruned_branches = [2] := by
    norm_num [ResourceSystem.calculate_resources,
      ResourceSystem.identify_pruned_branches, ResourceSystem.resource_pipeline,
      ResourceSystem.calculate_light_capture, ResourceSystem.apply_competition,
      ResourceSystem.calculate_resource_flow, ResourceSystem.evaluate_pruning,
      ResourceSystem.resource_flow_step, ResourceSystem.should_prune,
      ResourceSystem.calculate_photosynthesis,
      ResourceSystem.calculate_maintenance_cost,
      ResourceSystem.calculate_competition_factor, ResourceSystem.piLit,
      ResourceSystem.maxBranchesFull, ResourceSystem.light_capture_step,
      ResourceSystem.calculate_occlusion, ResourceSystem.sampling_occlusion,
      treeC1, storeC1, sysC1, paramsC1, branchAt, Branch.end_pos,
      defaultBranch, mkBranch, Vec3.sub_def, Vec3.length, Vec3.norm2,
      Vec3.smul, Vec3.add_def, Vec3.normalized, Vec3.dot, Vec3.divQ, clampQ,
      not_ratSqrt_lt_zero, List.range_succ, min_def, max_def]
  have hne' : treeC1.all_branches ≠ [] := by decide
  have hsnd : (treeC1.apply_resource_simulation sysC1).2.branch_states.length
      = 4 := by
    rw [apply_resource_simulation_snd treeC1 sysC1 hne',
      ResourceSystem.calculate_resources_length _ _ _ hne']
    decide
  have hfst : (treeC1.apply_resource_simulation sysC1).1.all_branches =
      [0, 1, 3] := by
    simp only [Tree.apply_resource_simulation]
    rw [if_neg (by simp [List.isEmpty_iff, hne']), hpruned]
    norm_num [treeC1, List.enum, List.enumFrom]
  refine ⟨hsnd, ?_, ?_⟩
  · rw [hfst]
    rfl
  · rw [hsnd, hfst]
    norm_num

/-- C2 (witness): monotonicity of the pruning set applied to the concrete
system `sysC2w`, whose light threshold makes branch 2 a first-call
candidate; it is still in the second call's pruning set. -/
theorem C2_witness :
    2 ∈ ResourceSystem.identify_pruned_branches
      (ResourceSystem.calculate_resources storeC2 idsC2
        (ResourceSystem.calculate_resources storeC2 idsC2 sysC2w).1).1 :=
  C2_pruning_set_monotone storeC2 idsC2 sysC2w 2 (by
    norm_num [ResourceSystem.calculate_resources,
      ResourceSystem.identify_pruned_branches, ResourceSystem.resource_pipeline,
      ResourceSystem.calculate_light_capture, ResourceSystem.apply_competition,
      ResourceSystem.calculate_resource_flow, ResourceSystem.evaluate_pruning,
      ResourceSystem.resource_flow_step, ResourceSystem.should_prune,
      ResourceSystem.calculate_photosynthesis,
      ResourceSystem.calculate_maintenance_cost,
      ResourceSystem.calculate_competition_factor, ResourceSystem.piLit,
      ResourceSystem.maxBranchesFull, ResourceSystem.light_capture_step,
      ResourceSystem.calculate_occlusion, ResourceSystem.sampling_occlusion,
      storeC2, idsC2, sysC2w, paramsC2w, paramsC2, branchAt, Branch.end_pos,
      defaultBranch, mkBranch, Vec3.sub_def, Vec3.length, Vec3.norm2,
      Vec3.smul, Vec3.add_def, Vec3.normalized, Vec3.dot, Vec3.divQ, clampQ,
      not_ratSqrt_lt_zero, List.range_succ, min_def, max_def])

/-- C3: `should_prune` holds exactly when the branch is deeper than the
trunk (`depth > 1`), old enough (`depth ≥ grace_period + 2`), and either
light-starved or in a sustained (≥ 2 cycles) resource deficit; in
particular a trunk branch (`depth ≤ 1`) is never a candidate. -/
theorem C3_should_prune_iff (p : ResourceParams) (b : Branch)
    (st : ResourceState) :
    (ResourceSystem.should_prune p b st = true ↔
      (1 < b.depth ∧ p.pruning_grace_period + 2 ≤ b.depth ∧
        (st.light_capture < p.min_light_threshold ∨
          (st.resource_balance < p.min_resource_threshold ∧
            2 ≤ st.deficit_duration)))) ∧
    (b.depth ≤ 1 → ResourceSystem.should_prune p b st = false) := by
  unfold ResourceSystem.should_prune
  constructor
  · split_ifs with h1 h2 h3 h4 <;> simp_all
  · intro h
    rw [if_pos h]

/-- C3 (witness): with default `ResourceParams`, a depth-5 branch holding
`1/100` light capture is a pruning candidate while the same starved state
at depth 1 is protected. -/
theorem C3_witness :
    ResourceSystem.should_prune {} brC3 stC3 = true ∧
    ResourceSystem.should_prune {} { brC3 with depth := 1 } stC3 = false :=
  ⟨(C3_should_prune_iff {} brC3 stC3).1.mpr
      ⟨by norm_num [brC3], by norm_num [brC3], Or.inl (by norm_num [stC3])⟩,
   (C3_should_prune_iff {} { brC3 with depth := 1 } stC3).2
      (by norm_num [brC3])⟩

/-- C10: `get_state` on any out-of-range `branch_id` (negative or at least
the state count) returns a default-constructed `ResourceState`, whose
fields are `light_capture = 1`, `resource_balance = 1`,
`accumulated_deficit = 0`, `deficit_duration = 0`,
`marked_for_pruning = false`. -/
theorem C10_get_state_default (sys : ResourceSystem) (branch_id : ℤ)
    (h : branch_id < 0 ∨ (sys.branch_states.length : ℤ) ≤ branch_id) :
    ResourceSystem.get_state sys branch_id = {} ∧
    ({} : ResourceState).light_capture = 1 ∧
    ({} : ResourceState).resource_balance = 1 ∧
    ({} : ResourceState).accumulated_deficit = 0 ∧
    ({} : ResourceState).marked_for_pruning = false ∧
    ({} : ResourceState).deficit_duration = 0 := by
  refine ⟨?_, rfl, rfl, rfl, rfl, rfl⟩
  unfold ResourceSystem.get_state
  rw [if_neg (by omega)]

/-- C10 (witness): on a one-state system, ids `-1` and `5` both fall back
to the default state. -/
theorem C10_witness :
    ResourceSystem.get_state sysC10 (-1) = {} ∧
    ResourceSystem.get_state sysC10 5 = {} :=
  ⟨(C10_get_state_default sysC10 (-1) (Or.inl (by norm_num))).1,
   (C10_get_state_default sysC10 5 (Or.inr (by norm_num [sysC10]))).1⟩

/-- C4: `compute_light_exposure` is the clamp to `[0,1]` of the maximum of
the alignment term `(dot(direction, to_light)+1)/2` and the ambient level;
whenever `ambient_light ∈ [0,1]` the result lies in `[ambient_light, 1]`. -/
theorem C4_light_exposure (t : TropismSystem) (position direction : Vec3)
    (h0 : 0 ≤ t.environment.ambient_light)
    (h1 : t.environment.ambient_light ≤ 1) :
    t.compute_light_exposure position direction =
      clampQ (max ((direction.dot ((t.environment.light_position -
        position).normalized) + 1) * (1 / 2)) t.environment.ambient_light)
        0 1 ∧
    t.environment.ambient_light ≤
      t.compute_light_exposure position direction ∧
    t.compute_light_exposure position direction ≤ 1 := by
  have hm := le_max_right
    ((direction.dot ((t.environment.light_position - position).normalized) +
      1) * (1 / 2)) t.environment.ambient_light
  refine ⟨rfl, ?_, ?_⟩
  · simp only [TropismSystem.compute_light_exposure, clampQ]
    split_ifs with ha hb <;> linarith
  · simp only [TropismSystem.compute_light_exposure, clampQ]
    split_ifs with ha hb <;> linarith

/-- C4 (witness): the exposure bounds instantiated at the origin with the
default environment (ambient `1/5`, light at `(0,100,0)`). -/
theorem C4_witness :
    tropC4.compute_light_exposure ⟨0, 0, 0⟩ ⟨0, 1, 0⟩ =
      clampQ (max ((Vec3.dot ⟨0, 1, 0⟩ ((tropC4.environment.light_position -
        ⟨0, 0, 0⟩).normalized) + 1) * (1 / 2))
        tropC4.environment.ambient_light) 0 1 ∧
    tropC4.environment.ambient_light ≤
      tropC4.compute_light_exposure ⟨0, 0, 0⟩ ⟨0, 1, 0⟩ ∧
    tropC4.compute_light_exposure ⟨0, 0, 0⟩ ⟨0, 1, 0⟩ ≤ 1 :=
  C4_light_exposure tropC4 ⟨0, 0, 0⟩ ⟨0, 1, 0⟩ (by norm_num [tropC4])
    (by norm_num [tropC4])

/-- C5: `generate` is `iterations` left-to-right rewriting passes — each
pass replaces every ruled character by its replacement and keeps the rest —
zero iterations return the axiom, and on the spec's example grammar one and
two iterations give the published strings. -/
theorem C5_generate_passes (p : LSystemParams) (r : Rng) :
    (generate p r).1 = (rewriteOnce p)^[p.iterations.toNat] p.axm ∧
    (∀ input : List Char, (apply_rules p input r).1 = rewriteOnce p input) ∧
    (p.iterations = 0 → (generate p r).1 = p.axm) ∧
    (generate (pEx 1) r).1 = "F[+F]F".toList ∧
    (generate (pEx 2) r).1 = "F[+F]F[+F[+F]F]F[+F]F".toList := by
  refine ⟨generate_fst p r, fun input => apply_rules_fst p input r, ?_, ?_, ?_⟩
  · intro h
    rw [generate_fst, h]
    rfl
  · rw [generate_fst]
    decide
  · rw [generate_fst]
    decide

/-- C5 (witness): the zero-iteration clause applied to the example grammar
with iteration count 0. -/
theorem C5_witness : (generate (pEx 0) rngZero).1 = (pEx 0).axm :=
  (C5_generate_passes (pEx 0) rngZero).2.2.1 rfl

/-- C6: the generated string is independent of the RNG stream, of
`random_seed` and of `stochastic_variation` (both arms of the stochastic
conditional in `apply_rules` append the same replacement), and any two
parameter sets agreeing on axiom, rules and iterations generate the same
string. -/
theorem C6_generate_deterministic (p : LSystemParams) (r r2 : Rng) :
    (generate p r).1 =
      (generate { p with stochastic_variation := 0, random_seed := 0 }
        r2).1 ∧
    (∀ (q : LSystemParams) (r3 : Rng), p.axm = q.axm → p.rules = q.rules →
      p.iterations = q.iterations → (generate p r).1 = (generate q r3).1) := by
  have hrw : ∀ (a b : LSystemParams), a.rules = b.rules →
      rewriteOnce a = rewriteOnce b := by
    intro a b hr
    funext input
    unfold rewriteOnce ruleApply
    rw [hr]
  constructor
  · rw [generate_fst, generate_fst,
      hrw { p with stochastic_variation := 0, random_seed := 0 } p rfl]
  · intro q r3 ha hr hi
    rw [generate_fst, generate_fst, hrw p q hr, ha, hi]

/-- C6 (witness): the example grammar with variation `1/2` and seed `42`
generates, on any stream, the same string as the plain example grammar. -/
theorem C6_witness :
    (generate pEx2var rngZero).1 = (generate (pEx 2) rngAlt).1 :=
  (C6_generate_deterministic pEx2var rngZero rngZero).2 (pEx 2) rngAlt rfl rfl
    rfl

/-- An axis-angle quaternion on an exactly-unit axis is a unit quaternion
whenever the trig pair is Pythagorean. -/
theorem fromAxisAngle_norm2 (t : Trig) (ht : t.Pythagorean) (axis : Vec3)
    (ha : axis.norm2 = 1) (angle : ℚ) :
    (Quat.fromAxisAngle t axis angle).norm2 = 1 := by
  simp only [Quat.fromAxisAngle, Quat.norm2, Vec3.normalized_of_norm2_one ha]
  have hp := ht (angle * (1 / 2))
  simp only [Vec3.norm2] at ha
  linear_combination
    (t.sinq (angle * (1 / 2)) * t.sinq (angle * (1 / 2))) * ha + hp

/-- Model of `rotate_turtle` preserves the exact orientation frame whenever the
rotation axis has exact unit square norm. -/
theorem rotate_turtle_frame (t : Trig) (ht : t.Pythagorean)
    (st : TurtleState) (h : FrameOrtho st) (angle : ℚ) (axis : Vec3)
    (ha : axis.norm2 = 1) : FrameOrtho (rotate_turtle t st angle axis) := by
  obtain ⟨hd, hu, hdu⟩ := h
  have hq := fromAxisAngle_norm2 t ht axis ha (angle * piTurtle / 180)
  have h1 : ((Quat.fromAxisAngle t axis
      (angle * piTurtle / 180)).rotate st.direction).norm2 = 1 := by
    rw [norm2_eq_dot, Quat.rotate_dot _ hq, ← norm2_eq_dot]
    exact hd
  have h2 : ((Quat.fromAxisAngle t axis
      (angle * piTurtle / 180)).rotate st.up).norm2 = 1 := by
    rw [norm2_eq_dot, Quat.rotate_dot _ hq, ← norm2_eq_dot]
    exact hu
  have h3 : ((Quat.fromAxisAngle t axis
      (angle * piTurtle / 180)).rotate st.direction).dot
      ((Quat.fromAxisAngle t axis (angle * piTurtle / 180)).rotate st.up)
      = 0 := by
    rw [Quat.rotate_dot _ hq]
    exact hdu
  refine ⟨?_, ?_, ?_⟩
  · show (((Quat.fromAxisAngle t axis
      (angle * piTurtle / 180)).rotate st.direction).normalized).norm2 = 1
    rw [Vec3.normalized_of_norm2_one h1]
    exact h1
  · show (((Quat.fromAxisAngle t axis
      (angle * piTurtle / 180)).rotate st.up).normalized).norm2 = 1
    rw [Vec3.normalized_of_norm2_one h2]
    exact h2
  · show (((Quat.fromAxisAngle t axis
      (angle * piTurtle / 180)).rotate st.direction).normalized).dot
      (((Quat.fromAxisAngle t axis
        (angle * piTurtle / 180)).rotate st.up).normalized) = 0
    rw [Vec3.normalized_of_norm2_one h1, Vec3.normalized_of_norm2_one h2]
    exact h3

/-- Each of the six rotation symbols preserves the exact orientation
frame: the axis is `up`, `direction`, or the normalized cross product,
each of exact unit square norm under the invariant. -/
theorem processSymbol_rotation_frame (p : LSystemParams) (t : Trig)
    (trop : Option TropismSystem) (ht : t.Pythagorean) (c : Char)
    (hc : c ∈ rotationSymbols) (s : InterpState) (h : FrameOrtho s.turtle) :
    FrameOrtho (processSymbol p t trop c s).turtle := by
  obtain ⟨hd, hu, hdu⟩ := h
  have hcross : (s.turtle.direction.cross s.turtle.up).norm2 = 1 := by
    rw [Vec3.cross_norm2, hd, hu, hdu]
    ring
  have hcrossn : ((s.turtle.direction.cross s.turtle.up).normalized).norm2
      = 1 := by
    rw [Vec3.normalized_of_norm2_one hcross]
    exact hcross
  simp only [rotationSymbols, List.mem_cons, List.not_mem_nil, or_false]
    at hc
  rcases hc with rfl | rfl | rfl | rfl | rfl | rfl
  · exact rotate_turtle_frame t ht s.turtle ⟨hd, hu, hdu⟩ _ s.turtle.up hu
  · exact rotate_turtle_frame t ht s.turtle ⟨hd, hu, hdu⟩ _ s.turtle.up hu
  · exact rotate_turtle_frame t ht s.turtle ⟨hd, hu, hdu⟩ _ _ hcrossn
  · exact rotate_turtle_frame t ht s.turtle ⟨hd, hu, hdu⟩ _ _ hcrossn
  · exact rotate_turtle_frame t ht s.turtle ⟨hd, hu, hdu⟩ _ s.turtle.direction
      hd
  · exact rotate_turtle_frame t ht s.turtle ⟨hd, hu, hdu⟩ _ s.turtle.direction
      hd

/-- C8: starting from the initial frame (`direction (0,1,0)`, `up
(0,0,1)`), processing any sequence of rotation symbols leaves `direction`
and `up` of exact unit square norm and exactly orthogonal — in particular
within the spec's `1e-4` tolerance. -/
theorem C8_orientation_invariant (p : LSystemParams) (t : Trig)
    (trop : Option TropismSystem) (r : Rng) (syms : List Char)
    (hsyms : ∀ c ∈ syms, c ∈ rotationSymbols) (ht : t.Pythagorean) :
    FrameOrtho (syms.foldl (fun s c => processSymbol p t trop c s)
      (interpretInit p r)).turtle ∧
    |(syms.foldl (fun s c => processSymbol p t trop c s)
      (interpretInit p r)).turtle.direction.norm2 - 1| ≤ 1 / 10000 ∧
    |(syms.foldl (fun s c => processSymbol p t trop c s)
      (interpretInit p r)).turtle.up.norm2 - 1| ≤ 1 / 10000 ∧
    |(syms.foldl (fun s c => processSymbol p t trop c s)
      (interpretInit p r)).turtle.direction.dot
      ((syms.foldl (fun s c => processSymbol p t trop c s)
        (interpretInit p r)).turtle.up)| ≤ 1 / 10000 := by
  have hinit : FrameOrtho (interpretInit p r).turtle := by
    refine ⟨?_, ?_, ?_⟩ <;> norm_num [interpretInit, Vec3.norm2, Vec3.dot]
  have hfold : ∀ (l : List Char) (s : InterpState),
      (∀ c ∈ l, c ∈ rotationSymbols) → FrameOrtho s.turtle →
      FrameOrtho ((l.foldl (fun s c => processSymbol p t trop c s)
        s).turtle) := by
    intro l
    induction l with
    | nil => intro s _ h; exact h
    | cons c cs ih =>
      intro s hl h
      rw [List.foldl_cons]
      exact ih _ (fun d hd => hl d (List.mem_cons_of_mem c hd))
        (processSymbol_rotation_frame p t trop ht c
          (hl c (List.mem_cons_self c cs)) s h)
  have hf := hfold syms (interpretInit p r) hsyms hinit
  obtain ⟨hd, hu, hdu⟩ := hf
  refine ⟨⟨hd, hu, hdu⟩, ?_, ?_, ?_⟩
  · rw [hd]
    norm_num
  · rw [hu]
    norm_num
  · rw [hdu]
    norm_num

/-- C8 (witness): the invariant applied to one of each rotation symbol
with the Pythagorean pair `sin = 0`, `cos = 1`. -/
theorem C8_witness :
    FrameOrtho (symsC8.foldl (fun s c => processSymbol pC8 trigZero none c s)
      (interpretInit pC8 rngZero)).turtle ∧
    |(symsC8.foldl (fun s c => processSymbol pC8 trigZero none c s)
      (interpretInit pC8 rngZero)).turtle.direction.norm2 - 1| ≤ 1 / 10000 ∧
    |(symsC8.foldl (fun s c => processSymbol pC8 trigZero none c s)
      (interpretInit pC8 rngZero)).turtle.up.norm2 - 1| ≤ 1 / 10000 ∧
    |(symsC8.foldl (fun s c => processSymbol pC8 trigZero none c s)
      (interpretInit pC8 rngZero)).turtle.direction.dot
      ((symsC8.foldl (fun s c => processSymbol pC8 trigZero none c s)
        (interpretInit pC8 rngZero)).turtle.up)| ≤ 1 / 10000 :=
  C8_orientation_invariant pC8 trigZero none rngZero symsC8 (by decide)
    (by intro a; norm_num [trigZero])

/-- C9 (amended): processing `]` with an empty stack changes nothing —
turtle, stack, tree and current branch included; with a non-empty stack the
saved state is popped and the current branch becomes the *first* flat-list
branch whose end position lies within `0.001` of the restored position — if
no branch matches, the current-branch reference is left unchanged (it may
then point at a branch whose end does not match, see the counterexample). -/
theorem C9_pop_behavior (p : LSystemParams) (t : Trig)
    (trop : Option TropismSystem) (s : InterpState) :
    (s.stack = [] → processSymbol p t trop ']' s = s) ∧
    (∀ (st : TurtleState) (rest : List TurtleState), s.stack = st :: rest →
      processSymbol p t trop ']' s =
        { s with
          turtle := st
          stack := rest
          current :=
            match s.tree.all_branches.find?
              (fun id => ((branchAt s.tree.store id).end_pos -
                st.position).length < 1 / 1000) with
            | some id => some id
            | none => s.current }) := by
  constructor
  · intro h
    simp only [processSymbol]
    rw [h]
  · intro st rest h
    simp only [processSymbol]
    rw [h]

/-- C9 (witness): the empty-stack no-op on the freshly initialized
interpreter state, and the pop equation on the state reached after
`"f[F"`. -/
theorem C9_witness :
    processSymbol pC9 trigZero none ']' (interpretInit pC9 rngZero) =
      interpretInit pC9 rngZero ∧
    processSymbol pC9 trigZero none ']' sC9a =
      { sC9a with
        turtle := stSaved
        stack := []
        current :=
          match sC9a.tree.all_branches.find?
            (fun id => ((branchAt sC9a.tree.store id).end_pos -
              stSaved.position).length < 1 / 1000) with
          | some id => some id
          | none => sC9a.current } := by
  constructor
  · exact (C9_pop_behavior pC9 trigZero none (interpretInit pC9 rngZero)).1
      rfl
  · refine (C9_pop_behavior pC9 trigZero none sC9a).2 stSaved [] ?_
    norm_num [sC9a, interpretInit, processSymbol, mkBranch, stSaved,
      Branch.end_pos, Tree.set_root, Tree.add_branch, branchAt, modifyAt,
      applyTropismToBranch, pC9, rngZero, Vec3.normalized, Vec3.length,
      Vec3.norm2, Vec3.smul, Vec3.add_def, Vec3.sub_def, Vec3.divQ,
      ratSqrt_one]

set_option maxHeartbeats 1000000 in
/-- C9 (counterexample): in `"f[F]"` the position saved before the bracket
is no branch's end position, so after the `]` pop the current branch stays
the bracket-interior branch (store index 1), whose end `(0,3,0)` is a full
unit away from the restored position `(0,2,0)`; indeed no tree branch
matches within the `0.001` tolerance, refuting the claim that the current
branch is re-established as a matching branch. -/
theorem C9_counterexample :
    sC9a.stack ≠ [] ∧
    sC9b.current = some 1 ∧
    (∀ id ∈ sC9b.tree.all_branches,
      ¬ ((branchAt sC9b.tree.store id).end_pos -
        sC9b.turtle.position).length < 1 / 1000) := by
  refine ⟨?_, ?_, ?_⟩ <;>
    norm_num [sC9a, sC9b, interpretInit, processSymbol, mkBranch, stSaved,
      Branch.end_pos, Tree.set_root, Tree.add_branch, branchAt, modifyAt,
      applyTropismToBranch, pC9, rngZero, Vec3.normalized, Vec3.length,
      Vec3.norm2, Vec3.smul, Vec3.add_def, Vec3.sub_def, Vec3.divQ,
      ratSqrt_one, List.find?]

end PlantGrow
